import Mathlib

/-!
# Verification of the AlphaCouncil workflow core

A shallow embedding of the AlphaCouncil repository's workflow engine
(`src/App.tsx`: `validateStockCode`, `handleAnalyze`) and durable-state /
history subsystem (`src/lib/storage.ts`), together with theorems settling
the specification's claims about them.

JavaScript strings are modelled as `List Char`; machine timestamps as `Int`
(JS `Date.now()` arithmetic); thrown exceptions as `Option String`
(`some m` for an `Error` carrying message `m`, `none` for a thrown
non-`Error` value); `localStorage` slots as `Option` of a stored-blob type
whose `malformed` constructor models content on which `JSON.parse` throws.
-/

namespace AlphaCouncil

/-! ## JavaScript string primitives -/

/-- JS whitespace test, restricted to the ASCII whitespace characters
relevant here (`String.prototype.trim` strips these). -/
def jsIsWS (c : Char) : Bool :=
  c = ' ' || c = '\t' || c = '\n' || c = '\r' || c = '\x0b' || c = '\x0c'

/-- `String.prototype.trim`: strip leading and trailing whitespace. -/
def jsTrim (l : List Char) : List Char :=
  ((l.dropWhile jsIsWS).reverse.dropWhile jsIsWS).reverse

/-- ASCII branch of `String.prototype.toLowerCase` on one character. -/
def jsCharLower (c : Char) : Char :=
  if 'A' ≤ c ∧ c ≤ 'Z' then Char.ofNat (c.toNat + 32) else c

/-- `String.prototype.toLowerCase` (ASCII branch). -/
def jsLower (l : List Char) : List Char :=
  l.map jsCharLower

/-- ASCII branch of `String.prototype.toUpperCase` on one character. -/
def jsCharUpper (c : Char) : Char :=
  if 'a' ≤ c ∧ c ≤ 'z' then Char.ofNat (c.toNat - 32) else c

/-- `String.prototype.toUpperCase` (ASCII branch). -/
def jsUpper (l : List Char) : List Char :=
  l.map jsCharUpper

/-- Does `l` start with `sub`? (`String.prototype.startsWith`). -/
def startsWithChars : List Char → List Char → Bool
  | [], _ => true
  | _ :: _, [] => false
  | a :: as, b :: bs => a = b && startsWithChars as bs

/-- `String.prototype.includes`: substring containment. -/
def containsSub : List Char → List Char → Bool
  | [], sub => sub.isEmpty
  | l@(_ :: rest), sub => startsWithChars sub l || containsSub rest sub

/-- The regular expression `/^\d{6}$/`: exactly six decimal digits. -/
def isSixDigits (l : List Char) : Bool :=
  l.length = 6 && l.all Char.isDigit

/-- `Array.prototype.findIndex`: index of first match, `-1` if none. -/
def jsFindIndex (p : α → Bool) : List α → Int
  | [] => -1
  | a :: as =>
    if p a then 0
    else
      let r := jsFindIndex p as
      if r < 0 then -1 else r + 1

/-! ## Symbol validation (`src/App.tsx`, `validateStockCode`) -/

/-- Result record of `validateStockCode`. -/
structure ValidationResult where
  valid : Bool
  message : Option String
deriving DecidableEq, Repr

def prefixFormatMsg : String :=
  "股票代码格式错误，应为6位数字（如: sh600519, sz000001）"

def lengthFormatMsg : String :=
  "股票代码应为6位数字（如: 600519, 000001, 300750）"

def marketRuleMsg : String :=
  "不是有效的沪深股市代码（沪市以6/9开头，深市以0/2/3开头）"

/-- The checks that `validateStockCode` (`src/App.tsx` lines 43–62) applies
to the already trimmed-and-lowercased `code`: either a market prefix
(`sh`/`sz`) followed by six digits, or six digits alone with an allowed
leading digit. -/
def validateCore (code : List Char) : ValidationResult :=
  if startsWithChars ['s', 'h'] code || startsWithChars ['s', 'z'] code then
    let num := code.drop 2
    if !isSixDigits num then ⟨false, some prefixFormatMsg⟩
    else ⟨true, none⟩
  else if !isSixDigits code then ⟨false, some lengthFormatMsg⟩
  else
    let firstDigit := code.headD ' '
    if !(['0', '1', '2', '3', '6', '8', '9'].contains firstDigit) then
      ⟨false, some marketRuleMsg⟩
    else ⟨true, none⟩

/-- `validateStockCode` from `src/App.tsx` lines 39–63:
`const code = symbol.trim().toLowerCase();` followed by the grammar checks
on `code`. -/
def validateStockCode (symbol : List Char) : ValidationResult :=
  validateCore (jsLower (jsTrim symbol))

/-! ## Data model (`src/types.ts` as referenced from `src/App.tsx`) -/

/-- The ten participant roles of `AgentRole` referenced in `src/App.tsx`
(`RISK_PORTF` renders the source's portfolio-risk role). -/
inductive AgentRole
  | MACRO | INDUSTRY | TECHNICAL | FUNDS | FUNDAMENTAL
  | MANAGER_FUNDAMENTAL | MANAGER_MOMENTUM
  | RISK_SYSTEM | RISK_PORTF
  | GM
deriving DecidableEq, Repr

/-- The five statuses of `AnalysisStatus` referenced in `src/App.tsx`. -/
inductive AnalysisStatus
  | IDLE | FETCHING_DATA | RUNNING | COMPLETED | ERROR
deriving DecidableEq, Repr

/-- `Partial<Record<AgentRole, string>>`: the output map of a run. -/
def Outputs : Type := AgentRole → Option String

/-- The empty output map (`{}`). -/
def emptyOutputs : Outputs := fun _ => none

/-- JS object spread `{ ...prev, ...next }`: right operand wins per key. -/
def mergeOutputs (prev next : Outputs) : Outputs :=
  fun r => match next r with
  | some v => some v
  | none => prev r

/-- One agent's tunable parameters (`AgentConfig`). The claims never inspect
config contents, only whole-map identity. -/
structure AgentConfig where
  model : String
  temperature : Nat
  systemPrompt : String
deriving DecidableEq, Repr

/-- `Record<AgentRole, AgentConfig>`. -/
def AgentConfigs : Type := AgentRole → AgentConfig

/-- `ApiKeys`: provider-name/credential pairs; `[]` models the JS `{}`. -/
def ApiKeys : Type := List (String × String)

/-- `WorkflowState` from `src/types.ts` as used throughout `src/App.tsx`. -/
structure WorkflowState where
  status : AnalysisStatus
  currentStep : Nat
  stockSymbol : List Char
  stockDataContext : String
  outputs : Outputs
  agentConfigs : AgentConfigs
  apiKeys : ApiKeys
  error : Option String

/-! ## Durable state store (`src/lib/storage.ts`) -/

def STORAGE_VERSION : String := "v1"

/-- `DATA_EXPIRY_MS = 30 * 60 * 1000` (30 minutes). -/
def DATA_EXPIRY_MS : Int := 30 * 60 * 1000

/-- The persistable subset of `WorkflowState`
(`Omit<WorkflowState, 'apiKeys' | 'error'>`): by construction the snapshot
carries neither `apiKeys` nor `error`. -/
structure PersistedStateSub where
  status : AnalysisStatus
  currentStep : Nat
  stockSymbol : List Char
  stockDataContext : String
  outputs : Outputs
  agentConfigs : AgentConfigs

/-- `PersistedState`: the versioned, time-stamped snapshot blob. -/
structure PersistedState where
  version : String
  timestamp : Int
  state : PersistedStateSub

/-- A raw `localStorage` value at the snapshot key: `malformed` models
content on which `JSON.parse` throws; `parsed` a well-shaped snapshot. -/
inductive StoredSnapshot
  | malformed
  | parsed (p : PersistedState)

/-- `saveState` (`storage.ts` lines 37–55): builds the versioned snapshot from
the persistable subset of the state, time-stamped `now`. -/
def saveState (now : Int) (st : WorkflowState) : StoredSnapshot :=
  .parsed
    { version := STORAGE_VERSION
      timestamp := now
      state :=
        { status := st.status
          currentStep := st.currentStep
          stockSymbol := st.stockSymbol
          stockDataContext := st.stockDataContext
          outputs := st.outputs
          agentConfigs := st.agentConfigs } }

/-- `loadState` (`storage.ts` lines 60–83): returns the loaded subset (or
`none`) together with the post-call content of the storage slot (deleted on
version mismatch or expiry; a parse failure is caught and returns `null`
without touching the slot). The expiry test is the source's strict
`Date.now() - persisted.timestamp > DATA_EXPIRY_MS`. -/
def loadState (now : Int) (slot : Option StoredSnapshot) :
    Option PersistedStateSub × Option StoredSnapshot :=
  match slot with
  | none => (none, none)
  | some .malformed => (none, some .malformed)
  | some (.parsed p) =>
    if p.version ≠ STORAGE_VERSION then (none, none)
    else if now - p.timestamp > DATA_EXPIRY_MS then (none, none)
    else (some p.state, some (.parsed p))

/-- Modelled from the spec: `DEFAULT_AGENTS` lives in `src/constants.ts`,
which is not under `src/`; it is a read-only default-configuration template
whose concrete field values no claim inspects. -/
def DEFAULT_AGENTS : AgentConfigs := fun _ => ⟨"", 0, ""⟩

/-- `getInitialState` (`storage.ts` lines 215–226): each field from the
loaded snapshot when present, else the hardcoded default; `apiKeys` is
always initialized empty and `error` absent. -/
def getInitialState (now : Int) (slot : Option StoredSnapshot) : WorkflowState :=
  let persisted := (loadState now slot).1
  { status := (persisted.map (·.status)).getD .IDLE
    currentStep := (persisted.map (·.currentStep)).getD 0
    stockSymbol := (persisted.map (·.stockSymbol)).getD []
    stockDataContext := (persisted.map (·.stockDataContext)).getD ""
    outputs := (persisted.map (·.outputs)).getD emptyOutputs
    agentConfigs := (persisted.map (·.agentConfigs)).getD DEFAULT_AGENTS
    apiKeys := []
    error := none }

/-! ## History ledger (`src/lib/storage.ts`) -/

/-- `HistoryItem` (`storage.ts` lines 17–26). -/
structure HistoryItem where
  id : String
  stockSymbol : List Char
  status : AnalysisStatus
  currentStep : Nat
  timestamp : Int
  completedAt : Option Int
  gmDecision : Option String
  outputs : Outputs

/-- A raw `localStorage` value at the history key (`HistoryStorage`):
`malformed` models content on which `JSON.parse` throws. -/
inductive StoredHistory
  | malformed
  | parsed (version : String) (items : List HistoryItem)

/-- Stable insertion step of the descending-by-`timestamp` sort that
`getHistory` applies (`items.sort((a, b) => b.timestamp - a.timestamp)`). -/
def insertByTimestamp (x : HistoryItem) : List HistoryItem → List HistoryItem
  | [] => [x]
  | a :: as =>
    if a.timestamp < x.timestamp then x :: a :: as
    else a :: insertByTimestamp x as

/-- Stable sort descending by `timestamp`. -/
def sortByTimestampDesc : List HistoryItem → List HistoryItem
  | [] => []
  | a :: as => insertByTimestamp a (sortByTimestampDesc as)

/-- `getHistory` (`storage.ts` lines 99–115): returns the read records and
the post-call slot content. Version mismatch deletes the slot and returns
`[]`; a parse failure is caught and returns `[]` without touching the slot;
otherwise all records, sorted descending by `timestamp`. -/
def getHistory (slot : Option StoredHistory) :
    List HistoryItem × Option StoredHistory :=
  match slot with
  | none => ([], none)
  | some .malformed => ([], some .malformed)
  | some (.parsed v items) =>
    if v ≠ STORAGE_VERSION then ([], none)
    else (sortByTimestampDesc items, some (.parsed v items))

/-- The `findIndex`/in-place-`set`-or-`unshift` pattern of `saveToHistory`
(`storage.ts` lines 143–151). -/
def jsUpsert (p : α → Bool) (x : α) (l : List α) : List α :=
  let existingIndex := jsFindIndex p l
  if existingIndex ≥ 0 then l.set existingIndex.toNat x else x :: l

/-- The dedup predicate of `saveToHistory`: same `stockSymbol` and status
not `COMPLETED`. -/
def sameSymbolInProgress (sym : List Char) (item : HistoryItem) : Bool :=
  decide (item.stockSymbol = sym) && decide (item.status ≠ AnalysisStatus.COMPLETED)

/-- The `newItem` record built by `saveToHistory` (`storage.ts` lines
125–140), including the decision-label extraction by marker substring. -/
def mkHistoryItem (now : Int) (st : WorkflowState) : HistoryItem :=
  let gmOutput := ((st.outputs .GM).getD "").data
  let gmDecision :=
    if containsSub gmOutput "🟢 买入".data then "买入"
    else if containsSub gmOutput "🔴 卖出".data then "卖出"
    else if containsSub gmOutput "🟡 观望".data then "观望"
    else "分析中"
  { id := String.mk st.stockSymbol ++ "-" ++ toString now
    stockSymbol := st.stockSymbol
    status := st.status
    currentStep := st.currentStep
    timestamp := now
    completedAt := if st.status = .COMPLETED then some now else none
    gmDecision := some gmDecision
    outputs := st.outputs }

/-- `saveToHistory` (`storage.ts` lines 120–165): reads (and sorts) the
ledger, overwrites the first not-yet-completed record of the same symbol in
place or prepends, truncates to 50 records, and persists. -/
def saveToHistory (now : Int) (st : WorkflowState) (slot : Option StoredHistory) :
    Option StoredHistory :=
  let history := (getHistory slot).1
  let newItem := mkHistoryItem now st
  let history2 := jsUpsert (sameSymbolInProgress st.stockSymbol) newItem history
  let trimmed := history2.take 50
  some (.parsed STORAGE_VERSION trimmed)

/-- Items held by a history slot (`[]` when absent or malformed). -/
def ledgerItems : Option StoredHistory → List HistoryItem
  | some (.parsed _ items) => items
  | _ => []

/-! ## Workflow engine (`src/App.tsx`, `handleAnalyze`)

`handleAnalyze` is async React code: `state` is the render-closure state
while every `setState(prev => …)` threads the live state functionally. The
embedding takes the closure state and the live-state thread separately and
mirrors each `setState` literally. Thrown JS values are `Thrown`
(`some m` = an `Error` with message `m`, `none` = a non-`Error` value);
each external call's outcome is an input oracle. -/

/-- A thrown JS value as the `catch` block sees it. -/
def Thrown : Type := Option String

/-- `error instanceof Error ? error.message : "发生未知错误"`. -/
def msgOfThrown (e : Thrown) : String :=
  e.getD "发生未知错误"

/-- The reference data returned by `fetchStockData`
(`src/services/juheService.ts`, not under `src/`); the claims never inspect
its contents beyond passing it to the context formatter. -/
structure StockData where
  payload : String

/-- Modelled from the spec: the pure context formatter
`formatStockDataForPrompt` lives in `src/services/juheService.ts`, which is
not under `src/`; `format(data) → string` is pure and synchronous and its
output string is opaque to every claim. -/
def formatStockDataForPrompt (d : StockData) : String :=
  d.payload

/-- The fetch-failed diagnostic message (`src/App.tsx` line 99). -/
def noDataMsg (symbol : List Char) : String :=
  "无法获取股票 " ++ String.mk (jsUpper symbol) ++
    " 的实时数据。请检查：\n1. 股票代码是否正确（如: 600519, 000001, 300750）\n2. 是否为沪深股市代码（不支持港股/美股）\n3. API服务是否正常"

/-- Everything observable about one `handleAnalyze` call: the last published
state, the `currentStep` of every published state in order, which external
calls were dispatched, and the prior-outputs argument passed to each of
stages 2–4. -/
structure RunResult where
  finalState : WorkflowState
  publishedSteps : List Nat
  fetchCalled : Bool
  stage1Called : Bool
  stage2Called : Bool
  stage3Called : Bool
  stage4Called : Bool
  stage2Arg : Option Outputs
  stage3Arg : Option Outputs
  stage4Arg : Option Outputs

/-- `handleAnalyze` (`src/App.tsx` lines 66–161). `st` is the closure state
captured at render; `fetchRes` the outcome of `fetchStockData`; `stage1` the
outcome of `runAnalystsStage`; `stage2`–`stage4` the outcomes of
`runManagersStage`/`runRiskStage`/`runGMStage` as functions of the
prior-outputs argument they are invoked with. Note line 125 reads the
closure `state.outputs`, not the live thread. -/
def handleAnalyze (st : WorkflowState) (symbol : List Char) (apiKeys : ApiKeys)
    (fetchRes : Except Thrown (Option StockData))
    (stage1 : Except Thrown Outputs)
    (stage2 stage3 stage4 : Outputs → Except Thrown Outputs) : RunResult :=
  let validation := validateStockCode symbol
  if validation.valid = false then
    { finalState := { st with status := .ERROR, error := validation.message }
      publishedSteps := [st.currentStep]
      fetchCalled := false, stage1Called := false, stage2Called := false
      stage3Called := false, stage4Called := false
      stage2Arg := none, stage3Arg := none, stage4Arg := none }
  else
    let st0 : WorkflowState :=
      { st with status := .FETCHING_DATA, currentStep := 0, stockSymbol := symbol
                outputs := emptyOutputs, apiKeys := apiKeys, error := none }
    match fetchRes with
    | .error e =>
      { finalState := { st0 with status := .ERROR, error := some (msgOfThrown e) }
        publishedSteps := [0, 0]
        fetchCalled := true, stage1Called := false, stage2Called := false
        stage3Called := false, stage4Called := false
        stage2Arg := none, stage3Arg := none, stage4Arg := none }
    | .ok none =>
      { finalState := { st0 with status := .ERROR, error := some (noDataMsg symbol) }
        publishedSteps := [0, 0]
        fetchCalled := true, stage1Called := false, stage2Called := false
        stage3Called := false, stage4Called := false
        stage2Arg := none, stage3Arg := none, stage4Arg := none }
    | .ok (some data) =>
      let ctx := formatStockDataForPrompt data
      let st1 : WorkflowState :=
        { st0 with status := .RUNNING, currentStep := 1, stockDataContext := ctx }
      match stage1 with
      | .error e =>
        { finalState := { st1 with status := .ERROR, error := some (msgOfThrown e) }
          publishedSteps := [0, 1, 1]
          fetchCalled := true, stage1Called := true, stage2Called := false
          stage3Called := false, stage4Called := false
          stage2Arg := none, stage3Arg := none, stage4Arg := none }
      | .ok analystResults =>
        let st2 : WorkflowState :=
          { st1 with currentStep := 2
                     outputs := mergeOutputs st1.outputs analystResults }
        let outputsAfterStep1 := mergeOutputs st.outputs analystResults
        match stage2 outputsAfterStep1 with
        | .error e =>
          { finalState := { st2 with status := .ERROR, error := some (msgOfThrown e) }
            publishedSteps := [0, 1, 2, 2]
            fetchCalled := true, stage1Called := true, stage2Called := true
            stage3Called := false, stage4Called := false
            stage2Arg := some outputsAfterStep1, stage3Arg := none, stage4Arg := none }
        | .ok managerResults =>
          let st3 : WorkflowState :=
            { st2 with currentStep := 3
                       outputs := mergeOutputs st2.outputs managerResults }
          let outputsAfterStep2 := mergeOutputs outputsAfterStep1 managerResults
          match stage3 outputsAfterStep2 with
          | .error e =>
            { finalState := { st3 with status := .ERROR, error := some (msgOfThrown e) }
              publishedSteps := [0, 1, 2, 3, 3]
              fetchCalled := true, stage1Called := true, stage2Called := true
              stage3Called := true, stage4Called := false
              stage2Arg := some outputsAfterStep1, stage3Arg := some outputsAfterStep2
              stage4Arg := none }
          | .ok riskResults =>
            let st4 : WorkflowState :=
              { st3 with currentStep := 4
                         outputs := mergeOutputs st3.outputs riskResults }
            let outputsAfterStep3 := mergeOutputs outputsAfterStep2 riskResults
            match stage4 outputsAfterStep3 with
            | .error e =>
              { finalState := { st4 with status := .ERROR, error := some (msgOfThrown e) }
                publishedSteps := [0, 1, 2, 3, 4, 4]
                fetchCalled := true, stage1Called := true, stage2Called := true
                stage3Called := true, stage4Called := true
                stage2Arg := some outputsAfterStep1, stage3Arg := some outputsAfterStep2
                stage4Arg := some outputsAfterStep3 }
            | .ok gmResult =>
              { finalState :=
                  { st4 with status := .COMPLETED, currentStep := 5
                             outputs := mergeOutputs st4.outputs gmResult }
                publishedSteps := [0, 1, 2, 3, 4, 5]
                fetchCalled := true, stage1Called := true, stage2Called := true
                stage3Called := true, stage4Called := true
                stage2Arg := some outputsAfterStep1, stage3Arg := some outputsAfterStep2
                stage4Arg := some outputsAfterStep3 }

/-- A fixed sample state used to instantiate theorems at concrete inputs. -/
def sampleState : WorkflowState :=
  { status := .COMPLETED
    currentStep := 5
    stockSymbol := ['6', '0', '0', '5', '1', '9']
    stockDataContext := "ctx"
    outputs := emptyOutputs
    agentConfigs := DEFAULT_AGENTS
    apiKeys := []
    error := none }

/-! ## Sorting lemmas for the history ledger -/

theorem insertByTimestamp_perm (x : HistoryItem) (l : List HistoryItem) :
    (insertByTimestamp x l).Perm (x :: l) := by
  induction l with
  | nil => exact List.Perm.refl _
  | cons a as ih =>
    unfold insertByTimestamp
    by_cases h : a.timestamp < x.timestamp
    · simp only [if_pos h]
      exact List.Perm.refl _
    · simp only [if_neg h]
      exact (ih.cons a).trans (List.Perm.swap x a as)

theorem sortByTimestampDesc_perm (l : List HistoryItem) :
    (sortByTimestampDesc l).Perm l := by
  induction l with
  | nil => exact List.Perm.refl _
  | cons a as ih =>
    exact (insertByTimestamp_perm a (sortByTimestampDesc as)).trans (ih.cons a)

theorem insertByTimestamp_pairwise (x : HistoryItem) (l : List HistoryItem)
    (h : l.Pairwise (fun a b => b.timestamp ≤ a.timestamp)) :
    (insertByTimestamp x l).Pairwise (fun a b => b.timestamp ≤ a.timestamp) := by
  induction l with
  | nil => simp [insertByTimestamp]
  | cons a as ih =>
    rw [List.pairwise_cons] at h
    unfold insertByTimestamp
    by_cases hc : a.timestamp < x.timestamp
    · simp only [if_pos hc]
      refine List.pairwise_cons.mpr ⟨?_, List.pairwise_cons.mpr ⟨h.1, h.2⟩⟩
      intro y hy
      rcases List.mem_cons.mp hy with rfl | hy
      · exact le_of_lt hc
      · exact (h.1 y hy).trans (le_of_lt hc)
    · simp only [if_neg hc]
      refine List.pairwise_cons.mpr ⟨?_, ih h.2⟩
      intro y hy
      rcases List.mem_cons.mp ((insertByTimestamp_perm x as).mem_iff.mp hy) with rfl | hy
      · exact le_of_not_lt hc
      · exact h.1 y hy

theorem sortByTimestampDesc_pairwise (l : List HistoryItem) :
    (sortByTimestampDesc l).Pairwise (fun a b => b.timestamp ≤ a.timestamp) := by
  induction l with
  | nil => simp [sortByTimestampDesc]
  | cons a as ih => exact insertByTimestamp_pairwise a _ ih

/-- In a list sorted descending by `timestamp`, the last element is oldest. -/
theorem pairwise_getLast_oldest (l : List HistoryItem)
    (h : l.Pairwise (fun a b => b.timestamp ≤ a.timestamp)) :
    ∀ b, l.getLast? = some b → ∀ a ∈ l, b.timestamp ≤ a.timestamp := by
  induction l with
  | nil => intro b hb; simp at hb
  | cons a as ih =>
    intro b hb y hy
    rw [List.pairwise_cons] at h
    cases as with
    | nil =>
      simp only [List.getLast?_singleton, Option.some.injEq] at hb
      subst hb
      simp only [List.mem_singleton] at hy
      subst hy
      exact le_refl _
    | cons c cs =>
      rw [List.getLast?_cons_cons] at hb
      have hbmem : b ∈ c :: cs := List.mem_of_mem_getLast? hb
      rcases List.mem_cons.mp hy with rfl | hy
      · exact h.1 b hbmem
      · exact ih h.2 b hb y hy

/-! ## `jsFindIndex` / `jsUpsert` lemmas -/

theorem jsFindIndex_cons (p : α → Bool) (a : α) (as : List α) :
    jsFindIndex p (a :: as) =
      if p a then 0 else if jsFindIndex p as < 0 then -1 else jsFindIndex p as + 1 :=
  rfl

theorem jsFindIndex_eq_neg_one (p : α → Bool) (l : List α)
    (h : ∀ a ∈ l, p a = false) : jsFindIndex p l = -1 := by
  induction l with
  | nil => rfl
  | cons a as ih =>
    unfold jsFindIndex
    rw [if_neg (by simp [h a (List.mem_cons_self a as)]), ih fun b hb => h b (List.mem_cons_of_mem a hb)]
    rfl

theorem jsFindIndex_nonneg (p : α → Bool) (l : List α)
    (h : ∃ a ∈ l, p a = true) : 0 ≤ jsFindIndex p l := by
  induction l with
  | nil => simp at h
  | cons a as ih =>
    unfold jsFindIndex
    by_cases hp : p a = true
    · rw [if_pos hp]
    · rw [if_neg hp]
      have : ∃ b ∈ as, p b = true := by
        rcases h with ⟨b, hb, hpb⟩
        rcases List.mem_cons.mp hb with rfl | hb
        · exact absurd hpb hp
        · exact ⟨b, hb, hpb⟩
      have h0 := ih this
      simp only [if_neg (not_lt.mpr h0)]
      omega

theorem jsUpsert_of_no_match (p : α → Bool) (x : α) (l : List α)
    (h : ∀ a ∈ l, p a = false) : jsUpsert p x l = x :: l := by
  unfold jsUpsert
  rw [jsFindIndex_eq_neg_one p l h]
  rfl

theorem jsUpsert_cons_true (p : α → Bool) (x a : α) (as : List α)
    (hpa : p a = true) : jsUpsert p x (a :: as) = x :: as := by
  unfold jsUpsert jsFindIndex
  rw [if_pos hpa]
  rfl

theorem jsUpsert_cons_false (p : α → Bool) (x a : α) (as : List α)
    (hpa : p a = false) (hex : ∃ b ∈ as, p b = true) :
    jsUpsert p x (a :: as) = a :: jsUpsert p x as := by
  have h0 : 0 ≤ jsFindIndex p as := jsFindIndex_nonneg p as hex
  unfold jsUpsert
  rw [show jsFindIndex p (a :: as)
        = jsFindIndex p as + 1 by
      rw [jsFindIndex_cons, if_neg (by simp [hpa]), if_neg (not_lt.mpr h0)]]
  rw [if_pos (by omega), if_pos h0]
  have htn : (jsFindIndex p as + 1).toNat = (jsFindIndex p as).toNat + 1 := by omega
  rw [htn, List.set_cons_succ]

/-- `findIndex` returns the position of the first match: if position `i`
holds a match and every position before `i` holds a non-match, the result
is `i`. -/
theorem jsFindIndex_eq_of_first (p : α → Bool) :
    ∀ (l : List α) (i : Nat),
    (∃ a, l[i]? = some a ∧ p a = true) →
    (∀ j, j < i → ∀ a, l[j]? = some a → p a = false) →
    jsFindIndex p l = (i : Int) := by
  intro l
  induction l with
  | nil =>
    intro i hm _
    rcases hm with ⟨a, ha, -⟩
    simp at ha
  | cons x xs ih =>
    intro i hm hf
    cases i with
    | zero =>
      rcases hm with ⟨a, ha, hpa⟩
      rw [List.getElem?_cons_zero] at ha
      cases ha
      rw [jsFindIndex_cons, if_pos hpa]
      rfl
    | succ n =>
      have hx : p x = false := hf 0 (by omega) x List.getElem?_cons_zero
      have hrec : jsFindIndex p xs = (n : Int) := by
        refine ih n ?_ ?_
        · rcases hm with ⟨a, ha, hpa⟩
          rw [List.getElem?_cons_succ] at ha
          exact ⟨a, ha, hpa⟩
        · intro j hj a haj
          exact hf (j + 1) (by omega) a (by rw [List.getElem?_cons_succ]; exact haj)
      rw [jsFindIndex_cons, if_neg (by simp [hx]), hrec,
        if_neg (not_lt.mpr (Int.ofNat_nonneg n))]
      omega

/-- When a first match sits at position `i`, the upsert is an in-place
`set` at `i`. -/
theorem jsUpsert_eq_set_of_first (p : α → Bool) (x : α) (l : List α) (i : Nat)
    (hm : ∃ a, l[i]? = some a ∧ p a = true)
    (hf : ∀ j, j < i → ∀ a, l[j]? = some a → p a = false) :
    jsUpsert p x l = l.set i x := by
  have hidx := jsFindIndex_eq_of_first p l i hm hf
  unfold jsUpsert
  rw [hidx, if_pos (Int.ofNat_nonneg i), Int.toNat_ofNat]

theorem jsUpsert_countP (p q : α → Bool) (x : α) (l : List α)
    (hx : q x = true) (himp : ∀ a, p a = true → q a = true)
    (hex : ∃ a ∈ l, p a = true) :
    (jsUpsert p x l).countP q = l.countP q := by
  induction l with
  | nil => simp at hex
  | cons a as ih =>
    by_cases hpa : p a = true
    · rw [jsUpsert_cons_true p x a as hpa, List.countP_cons, List.countP_cons,
        hx, himp a hpa]
    · have hpa' : p a = false := by simpa using hpa
      have hex' : ∃ b ∈ as, p b = true := by
        rcases hex with ⟨b, hb, hpb⟩
        rcases List.mem_cons.mp hb with rfl | hb
        · exact absurd hpb hpa
        · exact ⟨b, hb, hpb⟩
      rw [jsUpsert_cons_false p x a as hpa' hex', List.countP_cons,
        List.countP_cons, ih hex']

theorem jsUpsert_length (p : α → Bool) (x : α) (l : List α)
    (hex : ∃ a ∈ l, p a = true) :
    (jsUpsert p x l).length = l.length := by
  unfold jsUpsert
  rw [if_pos (jsFindIndex_nonneg p l hex)]
  exact List.length_set l _ x

/-! ## Claim C6 — snapshot expiry boundary -/

/-- C6 counterexample: the claim says `load()` returns nothing when
`now - timestamp` is exactly at the 30-minute boundary, but `loadState`
uses the strict test `now - timestamp > DATA_EXPIRY_MS`, so at exactly
30 minutes it returns the persisted state (and does not delete it). -/
theorem C6_boundary_counterexample :
    (loadState DATA_EXPIRY_MS (some (saveState 0 sampleState))).1 ≠ none := by
  simp [loadState, saveState, DATA_EXPIRY_MS, STORAGE_VERSION]

/-- C6 amended: for a version-matching snapshot, `load()` returns nothing
(and deletes the slot) exactly when `now - timestamp` is strictly beyond
the 30-minute threshold, and returns the persisted state (leaving the slot
in place) whenever `now - timestamp` is at or within the threshold. -/
theorem C6_expiry_strict (now : Int) (p : PersistedState)
    (hv : p.version = STORAGE_VERSION) :
    (now - p.timestamp > DATA_EXPIRY_MS →
      loadState now (some (.parsed p)) = (none, none)) ∧
    (now - p.timestamp ≤ DATA_EXPIRY_MS →
      loadState now (some (.parsed p)) = (some p.state, some (.parsed p))) := by
  constructor
  · intro h
    simp [loadState, hv, h]
  · intro h
    simp [loadState, hv, not_lt.mpr h]

/-- The persistable subset of `sampleState`, as `saveState` would store it. -/
def sampleSub : PersistedStateSub :=
  { status := sampleState.status
    currentStep := sampleState.currentStep
    stockSymbol := sampleState.stockSymbol
    stockDataContext := sampleState.stockDataContext
    outputs := sampleState.outputs
    agentConfigs := sampleState.agentConfigs }

/-- C6 witness: the amended theorem at a concrete snapshot, both at the
exact boundary (state returned) and strictly beyond it (nothing returned). -/
theorem C6_expiry_strict_witness :
    ((DATA_EXPIRY_MS : Int) - 0 ≤ DATA_EXPIRY_MS ∧
      loadState DATA_EXPIRY_MS (some (.parsed ⟨STORAGE_VERSION, 0, sampleSub⟩)) =
        (some sampleSub, some (.parsed ⟨STORAGE_VERSION, 0, sampleSub⟩))) ∧
    ((DATA_EXPIRY_MS : Int) + 1 - 0 > DATA_EXPIRY_MS ∧
      loadState (DATA_EXPIRY_MS + 1) (some (.parsed ⟨STORAGE_VERSION, 0, sampleSub⟩)) =
        (none, none)) :=
  ⟨⟨by decide,
      (C6_expiry_strict DATA_EXPIRY_MS ⟨STORAGE_VERSION, 0, sampleSub⟩ rfl).2 (by decide)⟩,
    ⟨by decide,
      (C6_expiry_strict (DATA_EXPIRY_MS + 1) ⟨STORAGE_VERSION, 0, sampleSub⟩ rfl).1 (by decide)⟩⟩

/-! ## Claim C7 — save/load round trip -/

/-- C7: `save(state)` followed by `load()` within the expiry window (same
version tag by construction) returns exactly the six persisted fields of the
input state; the snapshot type carries neither `apiKeys` nor `error`, and
`getInitialState` rebuilds a state agreeing with the input on those six
fields while always initializing `apiKeys` empty and `error` absent,
whatever the snapshot holds. -/
theorem C7_roundtrip (st : WorkflowState) (now1 now2 : Int)
    (h : now2 - now1 ≤ DATA_EXPIRY_MS) :
    (loadState now2 (some (saveState now1 st))).1 =
      some { status := st.status, currentStep := st.currentStep,
             stockSymbol := st.stockSymbol, stockDataContext := st.stockDataContext,
             outputs := st.outputs, agentConfigs := st.agentConfigs } ∧
    (getInitialState now2 (some (saveState now1 st))).status = st.status ∧
    (getInitialState now2 (some (saveState now1 st))).currentStep = st.currentStep ∧
    (getInitialState now2 (some (saveState now1 st))).stockSymbol = st.stockSymbol ∧
    (getInitialState now2 (some (saveState now1 st))).stockDataContext = st.stockDataContext ∧
    (getInitialState now2 (some (saveState now1 st))).outputs = st.outputs ∧
    (getInitialState now2 (some (saveState now1 st))).agentConfigs = st.agentConfigs ∧
    (∀ (now : Int) (slot : Option StoredSnapshot),
      (getInitialState now slot).apiKeys = [] ∧ (getInitialState now slot).error = none) := by
  have hload : (loadState now2 (some (saveState now1 st))).1 =
      some { status := st.status, currentStep := st.currentStep,
             stockSymbol := st.stockSymbol, stockDataContext := st.stockDataContext,
             outputs := st.outputs, agentConfigs := st.agentConfigs } := by
    simp [loadState, saveState, not_lt.mpr h]
  refine ⟨hload, ?_, ?_, ?_, ?_, ?_, ?_, ?_⟩
  all_goals simp [getInitialState, hload]

/-- C7 witness: the round trip at a concrete state and concrete times. -/
theorem C7_roundtrip_witness :
    ((0 : Int) - 0 ≤ DATA_EXPIRY_MS) ∧
    (loadState 0 (some (saveState 0 sampleState))).1 = some sampleSub ∧
    (getInitialState 0 (some (saveState 0 sampleState))).apiKeys = [] :=
  ⟨by decide, (C7_roundtrip sampleState 0 0 (by decide)).1,
    ((C7_roundtrip sampleState 0 0 (by decide)).2.2.2.2.2.2.2 0
      (some (saveState 0 sampleState))).1⟩

/-! ## Claim C8 — ledger read on mismatch or malformed content -/

/-- C8 counterexample: the claim says `list()` deletes the stored ledger on
malformed (unparseable) content; in the code the `JSON.parse` failure is
caught and `[]` returned with the stored value left untouched — deletion
happens only on version mismatch. -/
theorem C8_malformed_counterexample :
    (getHistory (some .malformed)).1 = [] ∧
    (getHistory (some .malformed)).2 = some .malformed ∧
    (getHistory (some .malformed)).2 ≠ none := by
  refine ⟨rfl, rfl, ?_⟩
  simp [getHistory]

/-- C8 amended: `list()` deletes the stored ledger and returns an empty
sequence on version mismatch; on malformed content it returns an empty
sequence but leaves the stored ledger in place; otherwise it returns all
stored records sorted descending by `timestamp`. -/
theorem C8_getHistory_behaviour :
    (∀ (v : String) (items : List HistoryItem), v ≠ STORAGE_VERSION →
      getHistory (some (.parsed v items)) = ([], none)) ∧
    getHistory (some .malformed) = ([], some .malformed) ∧
    (∀ items : List HistoryItem,
      (getHistory (some (.parsed STORAGE_VERSION items))).2 =
        some (.parsed STORAGE_VERSION items) ∧
      (getHistory (some (.parsed STORAGE_VERSION items))).1.Perm items ∧
      (getHistory (some (.parsed STORAGE_VERSION items))).1.Pairwise
        (fun a b => b.timestamp ≤ a.timestamp)) := by
  refine ⟨?_, rfl, ?_⟩
  · intro v items hv
    simp [getHistory, hv]
  · intro items
    refine ⟨by simp [getHistory], ?_, ?_⟩
    · simpa [getHistory] using sortByTimestampDesc_perm items
    · simpa [getHistory] using sortByTimestampDesc_pairwise items

/-- C8 witness: the amended theorem's mismatch branch at a concrete stale
version tag. -/
theorem C8_getHistory_behaviour_witness :
    ("v0" ≠ STORAGE_VERSION) ∧
    getHistory (some (.parsed "v0" [])) = ([], none) :=
  ⟨by decide, C8_getHistory_behaviour.1 "v0" [] (by decide)⟩

/-! ## Claims C9/C10 — validator facts -/

theorem startsWithChars_two_iff (a b : Char) (l : List Char) :
    startsWithChars [a, b] l = true ↔ ∃ t, l = a :: b :: t := by
  cases l with
  | nil => simp [startsWithChars]
  | cons x xs =>
    cases xs with
    | nil => simp [startsWithChars]
    | cons y ys =>
      simp only [startsWithChars, Bool.and_eq_true, decide_eq_true_eq]
      constructor
      · rintro ⟨rfl, rfl, -⟩
        exact ⟨ys, rfl⟩
      · rintro ⟨t, heq⟩
        rw [List.cons.injEq, List.cons.injEq] at heq
        exact ⟨heq.1.symm, heq.2.1.symm, trivial⟩

/-- `validateCore` returns one of exactly four results: valid, or one of
the three fixed diagnostic messages. -/
theorem validateCore_cases (code : List Char) :
    validateCore code = ⟨true, none⟩ ∨
    validateCore code = ⟨false, some prefixFormatMsg⟩ ∨
    validateCore code = ⟨false, some lengthFormatMsg⟩ ∨
    validateCore code = ⟨false, some marketRuleMsg⟩ := by
  unfold validateCore
  dsimp only
  split
  · split
    · right; left; rfl
    · left; rfl
  · split
    · right; right; left; rfl
    · split
      · right; right; right; rfl
      · left; rfl

/-- Whenever validation fails, the message is one of the three fixed
nonempty diagnostic strings. -/
theorem validateStockCode_false_message (s : List Char)
    (h : (validateStockCode s).valid = false) :
    ∃ m, (validateStockCode s).message = some m ∧ m ≠ "" := by
  unfold validateStockCode at *
  rcases validateCore_cases (jsLower (jsTrim s)) with hc | hc | hc | hc <;> rw [hc] at h ⊢
  · simp at h
  · exact ⟨prefixFormatMsg, rfl, by decide⟩
  · exact ⟨lengthFormatMsg, rfl, by decide⟩
  · exact ⟨marketRuleMsg, rfl, by decide⟩

/-- The subject-identifier grammar exactly as the spec's §6 words it: an
optional two-letter market prefix (one of the two fixed values `sh`, `sz`)
followed by exactly six digits, or six digits alone whose first digit
belongs to the fixed allowed set. -/
def specSymbolGrammar (code : List Char) : Prop :=
  (∃ num, (code = 's' :: 'h' :: num ∨ code = 's' :: 'z' :: num) ∧
    num.length = 6 ∧ ∀ c ∈ num, c.isDigit) ∨
  (code.length = 6 ∧ (∀ c ∈ code, c.isDigit) ∧
    ∃ c0 rest, code = c0 :: rest ∧ c0 ∈ ['0', '1', '2', '3', '6', '8', '9'])

theorem isSixDigits_iff (l : List Char) :
    isSixDigits l = true ↔ l.length = 6 ∧ ∀ c ∈ l, c.isDigit := by
  simp [isSixDigits, List.all_eq_true]

/-- The normalized-code checks accept exactly the spec's grammar. -/
theorem validateCore_valid_iff (code : List Char) :
    (validateCore code).valid = true ↔ specSymbolGrammar code := by
  by_cases hsh : startsWithChars ['s', 'h'] code = true
  · obtain ⟨t, rfl⟩ := (startsWithChars_two_iff 's' 'h' code).mp hsh
    rw [validateCore]
    rw [if_pos (by simp [hsh])]
    simp only [List.drop_succ_cons, List.drop_zero]
    constructor
    · intro hv
      have hsix : isSixDigits t = true := by
        by_contra hnot
        rw [Bool.not_eq_true] at hnot
        simp [hnot] at hv
      rcases (isSixDigits_iff t).mp hsix with ⟨hlen, hdig⟩
      exact Or.inl ⟨t, Or.inl rfl, hlen, hdig⟩
    · rintro (⟨num, heq | heq, hlen, hdig⟩ | ⟨-, hdig, -⟩)
      · rw [List.cons.injEq, List.cons.injEq] at heq
        obtain ⟨-, -, rfl⟩ := heq
        simp [(isSixDigits_iff t).mpr ⟨hlen, hdig⟩]
      · rw [List.cons.injEq, List.cons.injEq] at heq
        exact absurd heq.2.1 (by decide)
      · have := hdig 's' (List.mem_cons_self _ _)
        simp at this
  · by_cases hsz : startsWithChars ['s', 'z'] code = true
    · obtain ⟨t, rfl⟩ := (startsWithChars_two_iff 's' 'z' code).mp hsz
      rw [validateCore]
      rw [if_pos (by simp [hsz])]
      simp only [List.drop_succ_cons, List.drop_zero]
      constructor
      · intro hv
        have hsix : isSixDigits t = true := by
          by_contra hnot
          rw [Bool.not_eq_true] at hnot
          simp [hnot] at hv
        rcases (isSixDigits_iff t).mp hsix with ⟨hlen, hdig⟩
        exact Or.inl ⟨t, Or.inr rfl, hlen, hdig⟩
      · rintro (⟨num, heq | heq, hlen, hdig⟩ | ⟨-, hdig, -⟩)
        · rw [List.cons.injEq, List.cons.injEq] at heq
          exact absurd heq.2.1 (by decide)
        · rw [List.cons.injEq, List.cons.injEq] at heq
          obtain ⟨-, -, rfl⟩ := heq
          simp [(isSixDigits_iff t).mpr ⟨hlen, hdig⟩]
        · have := hdig 's' (List.mem_cons_self _ _)
          simp at this
    · rw [validateCore]
      rw [if_neg (by simp [hsh, hsz])]
      have hnosh : ∀ num : List Char, code ≠ 's' :: 'h' :: num := by
        intro num heq
        exact hsh ((startsWithChars_two_iff 's' 'h' code).mpr ⟨num, heq⟩)
      have hnosz : ∀ num : List Char, code ≠ 's' :: 'z' :: num := by
        intro num heq
        exact hsz ((startsWithChars_two_iff 's' 'z' code).mpr ⟨num, heq⟩)
      cases hsix : isSixDigits code with
      | true =>
        rcases (isSixDigits_iff code).mp hsix with ⟨hlen, hdig⟩
        cases code with
        | nil => simp at hlen
        | cons c0 rest =>
          rw [if_neg (by simp [hsix])]
          dsimp only [List.headD_cons]
          by_cases hm : c0 ∈ ['0', '1', '2', '3', '6', '8', '9']
          · have hcont : (['0', '1', '2', '3', '6', '8', '9'].contains c0) = true := by
              simpa using hm
            rw [if_neg (by rw [hcont]; decide)]
            constructor
            · intro _
              exact Or.inr ⟨hlen, hdig, c0, rest, rfl, hm⟩
            · intro _
              rfl
          · have hcont : (['0', '1', '2', '3', '6', '8', '9'].contains c0) = false := by
              simpa using hm
            rw [if_pos (by rw [hcont]; decide)]
            constructor
            · intro hv
              exact absurd hv (by decide)
            · rintro (⟨num, heq | heq, -, -⟩ | ⟨-, -, c0', rest', heq, hmem⟩)
              · exact absurd heq (hnosh num)
              · exact absurd heq (hnosz num)
              · rw [List.cons.injEq] at heq
                obtain ⟨rfl, -⟩ := heq
                exact absurd hmem hm
      | false =>
        rw [if_pos (by decide)]
        constructor
        · intro hv
          exact absurd hv (by decide)
        · rintro (⟨num, heq | heq, -, -⟩ | ⟨hlen, hdig, -⟩)
          · exact absurd heq (hnosh num)
          · exact absurd heq (hnosz num)
          · rw [(isSixDigits_iff code).mpr ⟨hlen, hdig⟩] at hsix
            exact absurd hsix (by decide)

/-- C10: the validator trims and lowercases before checking, so any input —
uppercase or mixed-case market prefix, surrounding whitespace — is accepted
exactly when its trimmed, lowercased form satisfies the spec's §6 grammar;
in particular `"SH600519"` and `"  sh600519 "` are accepted even though
neither matches the grammar verbatim. -/
theorem C10_normalize_before_grammar :
    (∀ s : List Char,
      (validateStockCode s).valid = true ↔ specSymbolGrammar (jsLower (jsTrim s))) ∧
    (validateStockCode "SH600519".data).valid = true ∧
    (validateStockCode "  sh600519 ".data).valid = true ∧
    ¬ specSymbolGrammar "SH600519".data ∧
    ¬ specSymbolGrammar "  sh600519 ".data := by
  refine ⟨fun s => validateCore_valid_iff (jsLower (jsTrim s)), by decide, by decide, ?_, ?_⟩
  · intro h
    have h' := (validateCore_valid_iff "SH600519".data).mpr h
    revert h'
    decide
  · intro h
    have h' := (validateCore_valid_iff "  sh600519 ".data).mpr h
    revert h'
    decide

/-- C9: for every malformed symbol the run does not start: the state moves
to `Error` with one of the nonempty diagnostic messages, no external call
(fetch or stage executor) is dispatched, and `outputs` and `currentStep`
keep their pre-call values. -/
theorem C9_invalid_symbol_rejected (st : WorkflowState) (symbol : List Char)
    (keys : ApiKeys) (fetchRes : Except Thrown (Option StockData))
    (stage1 : Except Thrown Outputs) (s2 s3 s4 : Outputs → Except Thrown Outputs)
    (h : (validateStockCode symbol).valid = false) :
    (handleAnalyze st symbol keys fetchRes stage1 s2 s3 s4).finalState.status = .ERROR ∧
    (∃ m, (handleAnalyze st symbol keys fetchRes stage1 s2 s3 s4).finalState.error = some m ∧
      m ≠ "") ∧
    (handleAnalyze st symbol keys fetchRes stage1 s2 s3 s4).finalState.outputs = st.outputs ∧
    (handleAnalyze st symbol keys fetchRes stage1 s2 s3 s4).finalState.currentStep =
      st.currentStep ∧
    (handleAnalyze st symbol keys fetchRes stage1 s2 s3 s4).fetchCalled = false ∧
    (handleAnalyze st symbol keys fetchRes stage1 s2 s3 s4).stage1Called = false ∧
    (handleAnalyze st symbol keys fetchRes stage1 s2 s3 s4).stage2Called = false ∧
    (handleAnalyze st symbol keys fetchRes stage1 s2 s3 s4).stage3Called = false ∧
    (handleAnalyze st symbol keys fetchRes stage1 s2 s3 s4).stage4Called = false := by
  have hres : handleAnalyze st symbol keys fetchRes stage1 s2 s3 s4 =
      { finalState := { st with status := .ERROR, error := (validateStockCode symbol).message }
        publishedSteps := [st.currentStep]
        fetchCalled := false, stage1Called := false, stage2Called := false
        stage3Called := false, stage4Called := false
        stage2Arg := none, stage3Arg := none, stage4Arg := none } := by
    unfold handleAnalyze
    rw [if_pos h]
  rw [hres]
  exact ⟨rfl, validateStockCode_false_message symbol h, rfl, rfl, rfl, rfl, rfl, rfl, rfl⟩

/-- C9 witness: the wrong-length symbol `"12345"` is rejected before any
external call, leaving `outputs`/`currentStep` of the sample state intact. -/
theorem C9_invalid_symbol_rejected_witness :
    (validateStockCode "12345".data).valid = false ∧
    (handleAnalyze sampleState "12345".data [] (.ok none) (.ok emptyOutputs)
        (fun _ => .ok emptyOutputs) (fun _ => .ok emptyOutputs)
        (fun _ => .ok emptyOutputs)).finalState.status = .ERROR ∧
    (handleAnalyze sampleState "12345".data [] (.ok none) (.ok emptyOutputs)
        (fun _ => .ok emptyOutputs) (fun _ => .ok emptyOutputs)
        (fun _ => .ok emptyOutputs)).fetchCalled = false :=
  ⟨by decide,
    (C9_invalid_symbol_rejected sampleState "12345".data [] (.ok none) (.ok emptyOutputs)
      (fun _ => .ok emptyOutputs) (fun _ => .ok emptyOutputs) (fun _ => .ok emptyOutputs)
      (by decide)).1,
    (C9_invalid_symbol_rejected sampleState "12345".data [] (.ok none) (.ok emptyOutputs)
      (fun _ => .ok emptyOutputs) (fun _ => .ok emptyOutputs) (fun _ => .ok emptyOutputs)
      (by decide)).2.2.2.2.1⟩

/-! ## Claims C1–C3 — the staged pipeline -/

theorem mergeOutputs_isSome_right (prev next : Outputs) (r : AgentRole)
    (h : (next r).isSome) : (mergeOutputs prev next r).isSome := by
  unfold mergeOutputs
  cases hn : next r with
  | none => rw [hn] at h; simp at h
  | some v => rfl

theorem mergeOutputs_isSome_left (prev next : Outputs) (r : AgentRole)
    (h : (prev r).isSome) : (mergeOutputs prev next r).isSome := by
  unfold mergeOutputs
  cases hn : next r with
  | none => exact h
  | some v => rfl

/-- C1: with a valid symbol, a successful fetch and four non-throwing stage
executors, the published `currentStep` values are exactly `0,1,2,3,4,5` (in
strictly increasing order), the final status is `Completed`, and the final
outputs map holds every role key any of the four stages returned. -/
theorem C1_pipeline_success (st : WorkflowState) (symbol : List Char)
    (keys : ApiKeys) (d : StockData) (r1 r2 r3 r4 : Outputs)
    (s2 s3 s4 : Outputs → Except Thrown Outputs)
    (hv : (validateStockCode symbol).valid = true)
    (h2 : s2 (mergeOutputs st.outputs r1) = .ok r2)
    (h3 : s3 (mergeOutputs (mergeOutputs st.outputs r1) r2) = .ok r3)
    (h4 : s4 (mergeOutputs (mergeOutputs (mergeOutputs st.outputs r1) r2) r3) = .ok r4) :
    (handleAnalyze st symbol keys (.ok (some d)) (.ok r1) s2 s3 s4).publishedSteps =
      [0, 1, 2, 3, 4, 5] ∧
    List.Chain' (· < ·)
      (handleAnalyze st symbol keys (.ok (some d)) (.ok r1) s2 s3 s4).publishedSteps ∧
    (handleAnalyze st symbol keys (.ok (some d)) (.ok r1) s2 s3 s4).finalState.status =
      .COMPLETED ∧
    (∀ r : AgentRole,
      (r1 r).isSome ∨ (r2 r).isSome ∨ (r3 r).isSome ∨ (r4 r).isSome →
      ((handleAnalyze st symbol keys (.ok (some d)) (.ok r1) s2 s3 s4).finalState.outputs
        r).isSome) := by
  have hres : handleAnalyze st symbol keys (.ok (some d)) (.ok r1) s2 s3 s4 =
      { finalState :=
          { st with status := .COMPLETED, currentStep := 5
                    stockSymbol := symbol, apiKeys := keys, error := none
                    stockDataContext := formatStockDataForPrompt d
                    outputs :=
                      mergeOutputs (mergeOutputs (mergeOutputs (mergeOutputs
                        emptyOutputs r1) r2) r3) r4 }
        publishedSteps := [0, 1, 2, 3, 4, 5]
        fetchCalled := true, stage1Called := true, stage2Called := true
        stage3Called := true, stage4Called := true
        stage2Arg := some (mergeOutputs st.outputs r1)
        stage3Arg := some (mergeOutputs (mergeOutputs st.outputs r1) r2)
        stage4Arg := some (mergeOutputs (mergeOutputs (mergeOutputs st.outputs r1) r2) r3) } := by
    unfold handleAnalyze
    rw [if_neg (by rw [hv]; decide)]
    dsimp only
    simp only [h2, h3, h4]
  rw [hres]
  refine ⟨rfl, ?_, rfl, ?_⟩
  · show List.Chain' (· < ·) [0, 1, 2, 3, 4, 5]
    refine List.chain'_cons.mpr ⟨by omega, ?_⟩
    refine List.chain'_cons.mpr ⟨by omega, ?_⟩
    refine List.chain'_cons.mpr ⟨by omega, ?_⟩
    refine List.chain'_cons.mpr ⟨by omega, ?_⟩
    exact List.chain'_pair.mpr (by omega)
  intro r hr
  rcases hr with h | h | h | h
  · exact mergeOutputs_isSome_left _ _ _
      (mergeOutputs_isSome_left _ _ _
        (mergeOutputs_isSome_left _ _ _ (mergeOutputs_isSome_right _ _ _ h)))
  · exact mergeOutputs_isSome_left _ _ _
      (mergeOutputs_isSome_left _ _ _ (mergeOutputs_isSome_right _ _ _ h))
  · exact mergeOutputs_isSome_left _ _ _ (mergeOutputs_isSome_right _ _ _ h)
  · exact mergeOutputs_isSome_right _ _ _ h

/-- Sample stage-1 (analyst) results: one entry per analyst role. -/
def demoR1 : Outputs := fun r =>
  match r with
  | .MACRO => some "m1"
  | .INDUSTRY => some "m2"
  | .TECHNICAL => some "m3"
  | .FUNDS => some "m4"
  | .FUNDAMENTAL => some "m5"
  | _ => none

/-- Sample stage-2 (manager) results. -/
def demoR2 : Outputs := fun r =>
  match r with
  | .MANAGER_FUNDAMENTAL => some "g1"
  | .MANAGER_MOMENTUM => some "g2"
  | _ => none

/-- Sample stage-3 (risk) results. -/
def demoR3 : Outputs := fun r =>
  match r with
  | .RISK_SYSTEM => some "k1"
  | .RISK_PORTF => some "k2"
  | _ => none

/-- Sample stage-4 (general-manager) result. -/
def demoR4 : Outputs := fun r =>
  match r with
  | .GM => some "🟢 买入"
  | _ => none

/-- C1 witness: the full pipeline at concrete inputs. -/
theorem C1_pipeline_success_witness :
    (validateStockCode "600519".data).valid = true ∧
    (handleAnalyze sampleState "600519".data [] (.ok (some ⟨"x"⟩)) (.ok demoR1)
        (fun _ => .ok demoR2) (fun _ => .ok demoR3) (fun _ => .ok demoR4)).publishedSteps =
      [0, 1, 2, 3, 4, 5] ∧
    (handleAnalyze sampleState "600519".data [] (.ok (some ⟨"x"⟩)) (.ok demoR1)
        (fun _ => .ok demoR2) (fun _ => .ok demoR3)
        (fun _ => .ok demoR4)).finalState.status = .COMPLETED :=
  ⟨by decide,
    (C1_pipeline_success sampleState "600519".data [] ⟨"x"⟩ demoR1 demoR2 demoR3 demoR4
      (fun _ => .ok demoR2) (fun _ => .ok demoR3) (fun _ => .ok demoR4)
      (by decide) rfl rfl rfl).1,
    (C1_pipeline_success sampleState "600519".data [] ⟨"x"⟩ demoR1 demoR2 demoR3 demoR4
      (fun _ => .ok demoR2) (fun _ => .ok demoR3) (fun _ => .ok demoR4)
      (by decide) rfl rfl rfl).2.2.1⟩

/-- C2: whichever stage executor throws, the run ends in `Error`; the
`error` field carries the thrown failure's message — the fallback literal
when the failure carries none — and the state's `outputs` hold exactly what
the completed stages folded in (the start of the run reset them to empty);
in particular a stage-3 throw leaves exactly the stage-1 and stage-2
results. -/
theorem C2_stage_failure (st : WorkflowState) (symbol : List Char) (keys : ApiKeys)
    (d : StockData) (e : Thrown) (r1 r2 r3 : Outputs)
    (s2 s3 s4 : Outputs → Except Thrown Outputs)
    (hv : (validateStockCode symbol).valid = true) :
    ((∀ m, msgOfThrown (some m) = m) ∧ msgOfThrown none = "发生未知错误") ∧
    ((handleAnalyze st symbol keys (.ok (some d)) (.error e) s2 s3 s4).finalState.status =
        .ERROR ∧
      (handleAnalyze st symbol keys (.ok (some d)) (.error e) s2 s3 s4).finalState.error =
        some (msgOfThrown e) ∧
      (handleAnalyze st symbol keys (.ok (some d)) (.error e) s2 s3 s4).finalState.outputs =
        emptyOutputs) ∧
    (s2 (mergeOutputs st.outputs r1) = .error e →
      (handleAnalyze st symbol keys (.ok (some d)) (.ok r1) s2 s3 s4).finalState.status =
        .ERROR ∧
      (handleAnalyze st symbol keys (.ok (some d)) (.ok r1) s2 s3 s4).finalState.error =
        some (msgOfThrown e) ∧
      (handleAnalyze st symbol keys (.ok (some d)) (.ok r1) s2 s3 s4).finalState.outputs =
        mergeOutputs emptyOutputs r1) ∧
    (s2 (mergeOutputs st.outputs r1) = .ok r2 →
      s3 (mergeOutputs (mergeOutputs st.outputs r1) r2) = .error e →
      (handleAnalyze st symbol keys (.ok (some d)) (.ok r1) s2 s3 s4).finalState.status =
        .ERROR ∧
      (handleAnalyze st symbol keys (.ok (some d)) (.ok r1) s2 s3 s4).finalState.error =
        some (msgOfThrown e) ∧
      (handleAnalyze st symbol keys (.ok (some d)) (.ok r1) s2 s3 s4).finalState.outputs =
        mergeOutputs (mergeOutputs emptyOutputs r1) r2) ∧
    (s2 (mergeOutputs st.outputs r1) = .ok r2 →
      s3 (mergeOutputs (mergeOutputs st.outputs r1) r2) = .ok r3 →
      s4 (mergeOutputs (mergeOutputs (mergeOutputs st.outputs r1) r2) r3) = .error e →
      (handleAnalyze st symbol keys (.ok (some d)) (.ok r1) s2 s3 s4).finalState.status =
        .ERROR ∧
      (handleAnalyze st symbol keys (.ok (some d)) (.ok r1) s2 s3 s4).finalState.error =
        some (msgOfThrown e) ∧
      (handleAnalyze st symbol keys (.ok (some d)) (.ok r1) s2 s3 s4).finalState.outputs =
        mergeOutputs (mergeOutputs (mergeOutputs emptyOutputs r1) r2) r3) := by
  refine ⟨⟨fun m => rfl, rfl⟩, ?_, ?_, ?_, ?_⟩
  · have hres : handleAnalyze st symbol keys (.ok (some d)) (.error e) s2 s3 s4 =
        { finalState :=
            { st with status := .ERROR, currentStep := 1, stockSymbol := symbol
                      apiKeys := keys, error := some (msgOfThrown e)
                      stockDataContext := formatStockDataForPrompt d
                      outputs := emptyOutputs }
          publishedSteps := [0, 1, 1]
          fetchCalled := true, stage1Called := true, stage2Called := false
          stage3Called := false, stage4Called := false
          stage2Arg := none, stage3Arg := none, stage4Arg := none } := by
      unfold handleAnalyze
      rw [if_neg (by rw [hv]; decide)]
    rw [hres]
    exact ⟨rfl, rfl, rfl⟩
  · intro h2
    have hres : handleAnalyze st symbol keys (.ok (some d)) (.ok r1) s2 s3 s4 =
        { finalState :=
            { st with status := .ERROR, currentStep := 2, stockSymbol := symbol
                      apiKeys := keys, error := some (msgOfThrown e)
                      stockDataContext := formatStockDataForPrompt d
                      outputs := mergeOutputs emptyOutputs r1 }
          publishedSteps := [0, 1, 2, 2]
          fetchCalled := true, stage1Called := true, stage2Called := true
          stage3Called := false, stage4Called := false
          stage2Arg := some (mergeOutputs st.outputs r1)
          stage3Arg := none, stage4Arg := none } := by
      unfold handleAnalyze
      rw [if_neg (by rw [hv]; decide)]
      dsimp only
      simp only [h2]
    rw [hres]
    exact ⟨rfl, rfl, rfl⟩
  · intro h2 h3
    have hres : handleAnalyze st symbol keys (.ok (some d)) (.ok r1) s2 s3 s4 =
        { finalState :=
            { st with status := .ERROR, currentStep := 3, stockSymbol := symbol
                      apiKeys := keys, error := some (msgOfThrown e)
                      stockDataContext := formatStockDataForPrompt d
                      outputs := mergeOutputs (mergeOutputs emptyOutputs r1) r2 }
          publishedSteps := [0, 1, 2, 3, 3]
          fetchCalled := true, stage1Called := true, stage2Called := true
          stage3Called := true, stage4Called := false
          stage2Arg := some (mergeOutputs st.outputs r1)
          stage3Arg := some (mergeOutputs (mergeOutputs st.outputs r1) r2)
          stage4Arg := none } := by
      unfold handleAnalyze
      rw [if_neg (by rw [hv]; decide)]
      dsimp only
      simp only [h2, h3]
    rw [hres]
    exact ⟨rfl, rfl, rfl⟩
  · intro h2 h3 h4
    have hres : handleAnalyze st symbol keys (.ok (some d)) (.ok r1) s2 s3 s4 =
        { finalState :=
            { st with status := .ERROR, currentStep := 4, stockSymbol := symbol
                      apiKeys := keys, error := some (msgOfThrown e)
                      stockDataContext := formatStockDataForPrompt d
                      outputs := mergeOutputs (mergeOutputs (mergeOutputs emptyOutputs r1) r2) r3 }
          publishedSteps := [0, 1, 2, 3, 4, 4]
          fetchCalled := true, stage1Called := true, stage2Called := true
          stage3Called := true, stage4Called := true
          stage2Arg := some (mergeOutputs st.outputs r1)
          stage3Arg := some (mergeOutputs (mergeOutputs st.outputs r1) r2)
          stage4Arg := some (mergeOutputs (mergeOutputs (mergeOutputs st.outputs r1) r2) r3) } := by
      unfold handleAnalyze
      rw [if_neg (by rw [hv]; decide)]
      dsimp only
      simp only [h2, h3, h4]
    rw [hres]
    exact ⟨rfl, rfl, rfl⟩

/-- C2 witness: a stage-3 throw at concrete inputs — status `Error`, the
thrown message surfaced, and the outputs exactly the stage-1/stage-2
entries at each role. -/
theorem C2_stage_failure_witness :
    (validateStockCode "600519".data).valid = true ∧
    (handleAnalyze sampleState "600519".data [] (.ok (some ⟨"x"⟩)) (.ok demoR1)
        (fun _ => .ok demoR2) (fun _ => .error (some "风控失败"))
        (fun _ => .ok demoR4)).finalState.status = .ERROR ∧
    (handleAnalyze sampleState "600519".data [] (.ok (some ⟨"x"⟩)) (.ok demoR1)
        (fun _ => .ok demoR2) (fun _ => .error (some "风控失败"))
        (fun _ => .ok demoR4)).finalState.error = some (msgOfThrown (some "风控失败")) ∧
    (handleAnalyze sampleState "600519".data [] (.ok (some ⟨"x"⟩)) (.ok demoR1)
        (fun _ => .ok demoR2) (fun _ => .error (some "风控失败"))
        (fun _ => .ok demoR4)).finalState.outputs =
      mergeOutputs (mergeOutputs emptyOutputs demoR1) demoR2 :=
  have h := (C2_stage_failure sampleState "600519".data [] ⟨"x"⟩ (some "风控失败")
    demoR1 demoR2 demoR3 (fun _ => .ok demoR2) (fun _ => .error (some "风控失败"))
    (fun _ => .ok demoR4) (by decide)).2.2.2.1 rfl rfl
  ⟨by decide, h.1, h.2.1, h.2.2⟩

/-- The closure state of a run started right after restoring a completed
record from history: status `Idle`, but `outputs` still holding the
restored record's general-manager entry. -/
def staleState : WorkflowState :=
  { status := .IDLE
    currentStep := 0
    stockSymbol := []
    stockDataContext := ""
    outputs := fun r => match r with | .GM => some "旧结论" | _ => none
    agentConfigs := DEFAULT_AGENTS
    apiKeys := []
    error := none }

/-- C3 failing input: `handleAnalyze` computes the managers' prior-outputs
argument from the render-closure `state.outputs` (`src/App.tsx` line 125),
not from the live state that the run just reset to empty; starting a run
from `staleState` therefore passes the leftover `GM` entry of the previous
record to the stage-2 executor, while the current run's accumulated
stage-1 outputs hold no `GM` entry — contradicting both the claim and the
code's own comment that the managers receive step-1's results. -/
theorem C3_stale_closure_bug :
    ((handleAnalyze staleState "600519".data [] (.ok (some ⟨"x"⟩)) (.ok demoR1)
        (fun _ => .ok demoR2) (fun _ => .ok demoR3) (fun _ => .ok demoR4)).stage2Arg.map
      (· AgentRole.GM)) = some (some "旧结论") ∧
    mergeOutputs emptyOutputs demoR1 AgentRole.GM = none ∧
    ((handleAnalyze staleState "600519".data [] (.ok (some ⟨"x"⟩)) (.ok demoR1)
        (fun _ => .ok demoR2) (fun _ => .ok demoR3) (fun _ => .ok demoR4)).stage2Arg.map
      (· AgentRole.GM)) ≠ some (mergeOutputs emptyOutputs demoR1 AgentRole.GM) := by
  refine ⟨by decide, by decide, by decide⟩

/-! ## Claims C4/C5 — history deduplication and bounded retention -/

/-- `saveToHistory` unfolded: read-and-sort, upsert, trim to 50, persist. -/
theorem saveToHistory_eq (now : Int) (st : WorkflowState) (slot : Option StoredHistory) :
    saveToHistory now st slot =
      some (.parsed STORAGE_VERSION
        ((jsUpsert (sameSymbolInProgress st.stockSymbol) (mkHistoryItem now st)
          (getHistory slot).1).take 50)) :=
  rfl

theorem ledgerItems_saveToHistory (now : Int) (st : WorkflowState)
    (slot : Option StoredHistory) :
    ledgerItems (saveToHistory now st slot) =
      (jsUpsert (sameSymbolInProgress st.stockSymbol) (mkHistoryItem now st)
        (getHistory slot).1).take 50 :=
  rfl

theorem getHistory_saveToHistory (now : Int) (st : WorkflowState)
    (slot : Option StoredHistory) :
    (getHistory (saveToHistory now st slot)).1 =
      sortByTimestampDesc (ledgerItems (saveToHistory now st slot)) := by
  rw [saveToHistory_eq]
  simp [getHistory, ledgerItems]

theorem mkHistoryItem_stockSymbol (now : Int) (st : WorkflowState) :
    (mkHistoryItem now st).stockSymbol = st.stockSymbol :=
  rfl

theorem mkHistoryItem_status (now : Int) (st : WorkflowState) :
    (mkHistoryItem now st).status = st.status :=
  rfl

theorem sameSymbolInProgress_imp_sameSymbol (sym : List Char) (it : HistoryItem)
    (h : sameSymbolInProgress sym it = true) :
    decide (it.stockSymbol = sym) = true :=
  (Bool.and_eq_true_iff.mp h).1

/-- C4: (a) when the read ledger already holds a same-symbol not-`Completed`
record — its first occurrence at position `i` — `record` overwrites exactly
that record in place: the length is unchanged (no new entry), position `i`
now holds the new record, and every other position is untouched; (b) two
successive `record` calls for the same symbol, the first with a
not-`Completed` state and the second with any state (e.g. `Completed`, the
app's actual call site), leave exactly one ledger entry for that symbol and
the second call adds no entry; (c) once every record of the symbol is
`Completed`, `record` prepends a fresh entry instead. -/
theorem C4_record_dedup :
    (∀ (st : WorkflowState) (slot : Option StoredHistory) (now : Int) (i : Nat),
      (∃ it, ((getHistory slot).1)[i]? = some it ∧
        sameSymbolInProgress st.stockSymbol it = true) →
      (∀ j, j < i → ∀ it, ((getHistory slot).1)[j]? = some it →
        sameSymbolInProgress st.stockSymbol it = false) →
      (getHistory slot).1.length ≤ 50 →
      (ledgerItems (saveToHistory now st slot)).length = (getHistory slot).1.length ∧
      (ledgerItems (saveToHistory now st slot))[i]? = some (mkHistoryItem now st) ∧
      (∀ j, j ≠ i →
        (ledgerItems (saveToHistory now st slot))[j]? = ((getHistory slot).1)[j]?)) ∧
    (∀ (st1 st2 : WorkflowState) (slot : Option StoredHistory) (now1 now2 : Int),
      st1.status ≠ .COMPLETED →
      st2.stockSymbol = st1.stockSymbol →
      (getHistory slot).1.countP
        (fun it => decide (it.stockSymbol = st1.stockSymbol)) = 0 →
      (getHistory slot).1.length ≤ 49 →
      (ledgerItems (saveToHistory now1 st1 slot)).countP
        (fun it => decide (it.stockSymbol = st1.stockSymbol)) = 1 ∧
      (ledgerItems (saveToHistory now2 st2 (saveToHistory now1 st1 slot))).countP
        (fun it => decide (it.stockSymbol = st1.stockSymbol)) = 1 ∧
      (ledgerItems (saveToHistory now2 st2 (saveToHistory now1 st1 slot))).length =
        (ledgerItems (saveToHistory now1 st1 slot)).length) ∧
    (∀ (st : WorkflowState) (slot : Option StoredHistory) (now : Int),
      (∀ it ∈ (getHistory slot).1, it.stockSymbol = st.stockSymbol →
        it.status = .COMPLETED) →
      (getHistory slot).1.length ≤ 49 →
      ledgerItems (saveToHistory now st slot) =
        mkHistoryItem now st :: (getHistory slot).1) := by
  refine ⟨?_, ?_, ?_⟩
  · intro st slot now i hm hf hlen
    have hi : i < (getHistory slot).1.length := by
      rcases hm with ⟨it, hit, -⟩
      exact (List.getElem?_eq_some_iff.mp hit).1
    have hset : jsUpsert (sameSymbolInProgress st.stockSymbol) (mkHistoryItem now st)
        ((getHistory slot).1) = ((getHistory slot).1).set i (mkHistoryItem now st) :=
      jsUpsert_eq_set_of_first _ _ _ i hm hf
    have hitems : ledgerItems (saveToHistory now st slot) =
        ((getHistory slot).1).set i (mkHistoryItem now st) := by
      rw [ledgerItems_saveToHistory, hset,
        List.take_of_length_le (by rw [List.length_set]; exact hlen)]
    refine ⟨?_, ?_, ?_⟩
    · rw [hitems, List.length_set]
    · rw [hitems]
      exact List.getElem?_set_self hi
    · intro j hj
      rw [hitems]
      exact List.getElem?_set_ne (Ne.symm hj)
  · intro st1 st2 slot now1 now2 hst hsym h0 hlen
    set q : HistoryItem → Bool := fun it => decide (it.stockSymbol = st1.stockSymbol) with hq
    set p : HistoryItem → Bool := sameSymbolInProgress st1.stockSymbol with hp
    have hp2 : sameSymbolInProgress st2.stockSymbol = p := by
      rw [hp, hsym]
    have himp : ∀ a, p a = true → q a = true := fun a ha =>
      sameSymbolInProgress_imp_sameSymbol st1.stockSymbol a ha
    have hnomatch : ∀ a ∈ (getHistory slot).1, p a = false := by
      intro a ha
      have hqa : ¬ q a = true := List.countP_eq_zero.mp h0 a ha
      cases hpa : p a with
      | false => rfl
      | true => exact absurd (himp a hpa) hqa
    have hq1 : q (mkHistoryItem now1 st1) = true := by
      rw [hq]
      simp [mkHistoryItem_stockSymbol]
    have hq2 : q (mkHistoryItem now2 st2) = true := by
      rw [hq]
      simp [mkHistoryItem_stockSymbol, hsym]
    -- first call: no match, prepend; trim is a no-op
    have hitems1 : ledgerItems (saveToHistory now1 st1 slot) =
        mkHistoryItem now1 st1 :: (getHistory slot).1 := by
      rw [ledgerItems_saveToHistory, jsUpsert_of_no_match _ _ _ hnomatch,
        List.take_of_length_le (by simp; omega)]
    have hcount1 : (ledgerItems (saveToHistory now1 st1 slot)).countP q = 1 := by
      rw [hitems1, List.countP_cons, h0, hq1]
      simp
    have hlen1 : (ledgerItems (saveToHistory now1 st1 slot)).length ≤ 50 := by
      rw [hitems1]
      simp
      omega
    -- the sorted view of the ledger after the first call
    have hperm : ((getHistory (saveToHistory now1 st1 slot)).1).Perm
        (ledgerItems (saveToHistory now1 st1 slot)) := by
      rw [getHistory_saveToHistory]
      exact sortByTimestampDesc_perm _
    have hcountH1 : ((getHistory (saveToHistory now1 st1 slot)).1).countP q = 1 := by
      rw [hperm.countP_eq, hcount1]
    have hlenH1 : ((getHistory (saveToHistory now1 st1 slot)).1).length =
        (ledgerItems (saveToHistory now1 st1 slot)).length :=
      hperm.length_eq
    -- the record written by the first call is still in progress and carries
    -- the symbol the second call looks for
    have hpnew : p (mkHistoryItem now1 st1) = true := by
      rw [hp]
      unfold sameSymbolInProgress
      rw [mkHistoryItem_stockSymbol, mkHistoryItem_status]
      simp [hst]
    have hex : ∃ a ∈ (getHistory (saveToHistory now1 st1 slot)).1, p a = true := by
      refine ⟨mkHistoryItem now1 st1, ?_, hpnew⟩
      rw [hperm.mem_iff, hitems1]
      exact List.mem_cons_self _ _
    have hup2count : (jsUpsert p (mkHistoryItem now2 st2)
        ((getHistory (saveToHistory now1 st1 slot)).1)).countP q = 1 := by
      rw [jsUpsert_countP p q _ _ hq2 himp hex, hcountH1]
    have hup2len : (jsUpsert p (mkHistoryItem now2 st2)
        ((getHistory (saveToHistory now1 st1 slot)).1)).length =
        ((getHistory (saveToHistory now1 st1 slot)).1).length :=
      jsUpsert_length p _ _ hex
    have htake2 : (jsUpsert p (mkHistoryItem now2 st2)
        ((getHistory (saveToHistory now1 st1 slot)).1)).take 50 =
        jsUpsert p (mkHistoryItem now2 st2)
          ((getHistory (saveToHistory now1 st1 slot)).1) := by
      refine List.take_of_length_le ?_
      rw [hup2len, hlenH1]
      exact hlen1
    refine ⟨hcount1, ?_, ?_⟩
    · rw [ledgerItems_saveToHistory, hp2, htake2, hup2count]
    · rw [ledgerItems_saveToHistory, hp2, htake2, hup2len, hlenH1]
  · intro st slot now hcompleted hlen
    have hnomatch : ∀ a ∈ (getHistory slot).1, sameSymbolInProgress st.stockSymbol a = false := by
      intro a ha
      cases hpa : sameSymbolInProgress st.stockSymbol a with
      | false => rfl
      | true =>
        rcases Bool.and_eq_true_iff.mp hpa with ⟨hsym, hnc⟩
        have hc := hcompleted a ha (of_decide_eq_true hsym)
        rw [decide_eq_true_eq] at hnc
        exact absurd hc hnc
    rw [ledgerItems_saveToHistory, jsUpsert_of_no_match _ _ _ hnomatch,
      List.take_of_length_le (by simp; omega)]

/-- A concrete in-progress run state used to instantiate ledger theorems. -/
def runningState : WorkflowState :=
  { status := .RUNNING
    currentStep := 2
    stockSymbol := ['a']
    stockDataContext := ""
    outputs := emptyOutputs
    agentConfigs := DEFAULT_AGENTS
    apiKeys := []
    error := none }

/-- A `Completed` run state for the same symbol as `runningState`. -/
def completedStateA : WorkflowState :=
  { status := .COMPLETED
    currentStep := 5
    stockSymbol := ['a']
    stockDataContext := ""
    outputs := emptyOutputs
    agentConfigs := DEFAULT_AGENTS
    apiKeys := []
    error := none }

/-- A completed ledger record for a different symbol (most recent). -/
def itemB : HistoryItem :=
  { id := "b", stockSymbol := ['b'], status := .COMPLETED, currentStep := 5
    timestamp := 10, completedAt := none, gmDecision := none, outputs := emptyOutputs }

/-- An in-progress ledger record for symbol `a` (older, so it sits at
position 1 of the sorted read). -/
def itemA : HistoryItem :=
  { id := "a-1", stockSymbol := ['a'], status := .RUNNING, currentStep := 2
    timestamp := 5, completedAt := none, gmDecision := none, outputs := emptyOutputs }

/-- A stored ledger holding `itemB` and `itemA`. -/
def slotTwo : Option StoredHistory :=
  some (.parsed STORAGE_VERSION [itemB, itemA])

/-- C4 witness: (a) recording a `Completed` state for symbol `a` over a
ledger whose sorted read is `[itemB, itemA]` overwrites `itemA` in place at
position 1, leaving position 0 and the length untouched; (b) a `Completed`
second call after an in-progress first call for the same symbol leaves
exactly one entry; (c) `record` of a `Completed` state over an empty ledger
prepends a fresh entry. -/
theorem C4_record_dedup_witness :
    (completedStateA.status = .COMPLETED ∧
      itemA.status ≠ .COMPLETED ∧
      (ledgerItems (saveToHistory 20 completedStateA slotTwo)).length =
        (getHistory slotTwo).1.length ∧
      (ledgerItems (saveToHistory 20 completedStateA slotTwo))[1]? =
        some (mkHistoryItem 20 completedStateA) ∧
      (∀ j, j ≠ 1 →
        (ledgerItems (saveToHistory 20 completedStateA slotTwo))[j]? =
          ((getHistory slotTwo).1)[j]?)) ∧
    ((ledgerItems (saveToHistory 2 completedStateA (saveToHistory 1 runningState none))).countP
        (fun it => decide (it.stockSymbol = runningState.stockSymbol)) = 1 ∧
      (ledgerItems (saveToHistory 2 completedStateA (saveToHistory 1 runningState none))).length =
        (ledgerItems (saveToHistory 1 runningState none)).length) ∧
    ledgerItems (saveToHistory 3 sampleState none) =
      mkHistoryItem 3 sampleState :: (getHistory none).1 :=
  have ha := C4_record_dedup.1 completedStateA slotTwo 20 1
    ⟨itemA, rfl, by decide⟩
    (by
      intro j hj it hit
      have hj0 : j = 0 := by omega
      subst hj0
      rw [show ((getHistory slotTwo).1)[0]? = some itemB from rfl] at hit
      cases hit
      decide)
    (by decide)
  have hb := C4_record_dedup.2.1 runningState completedStateA none 1 2
    (by decide) rfl rfl (by decide)
  ⟨⟨by decide, by decide, ha.1, ha.2.1, ha.2.2⟩,
    ⟨hb.2.1, hb.2.2⟩,
    C4_record_dedup.2.2 sampleState none 3 (by simp [getHistory]) (by decide)⟩

/-- The items of every ledger read are sorted descending by `timestamp`. -/
theorem getHistory_sorted (slot : Option StoredHistory) :
    (getHistory slot).1.Pairwise (fun a b => b.timestamp ≤ a.timestamp) := by
  cases slot with
  | none => simp [getHistory]
  | some sh =>
    cases sh with
    | malformed => simp [getHistory]
    | parsed v items =>
      by_cases hv : v = STORAGE_VERSION
      · simpa [getHistory, hv] using sortByTimestampDesc_pairwise items
      · simp [getHistory, hv]

/-- C5: every `record` call leaves at most 50 persisted records; recording a
51st distinct record keeps exactly 50, the new record in front of the 49
most recent old ones, the dropped record being the recency-order oldest
(the last of the sorted read, whose timestamp is minimal). -/
theorem C5_ledger_capped :
    (∀ (now : Int) (st : WorkflowState) (slot : Option StoredHistory),
      (ledgerItems (saveToHistory now st slot)).length ≤ 50) ∧
    (∀ (now : Int) (st : WorkflowState) (slot : Option StoredHistory),
      (∀ it ∈ (getHistory slot).1, it.stockSymbol ≠ st.stockSymbol) →
      (getHistory slot).1.length = 50 →
      ledgerItems (saveToHistory now st slot) =
        mkHistoryItem now st :: (getHistory slot).1.take 49 ∧
      (ledgerItems (saveToHistory now st slot)).length = 50 ∧
      (∀ b, (getHistory slot).1.getLast? = some b →
        ∀ a ∈ (getHistory slot).1, b.timestamp ≤ a.timestamp)) := by
  constructor
  · intro now st slot
    rw [ledgerItems_saveToHistory]
    exact List.length_take_le _ _
  · intro now st slot hdistinct hlen
    have hnomatch : ∀ a ∈ (getHistory slot).1,
        sameSymbolInProgress st.stockSymbol a = false := by
      intro a ha
      cases hpa : sameSymbolInProgress st.stockSymbol a with
      | false => rfl
      | true =>
        have hsym := of_decide_eq_true (Bool.and_eq_true_iff.mp hpa).1
        exact absurd hsym (hdistinct a ha)
    have hitems : ledgerItems (saveToHistory now st slot) =
        mkHistoryItem now st :: (getHistory slot).1.take 49 := by
      rw [ledgerItems_saveToHistory, jsUpsert_of_no_match _ _ _ hnomatch]
      rw [show (50 : Nat) = 49 + 1 from rfl, List.take_succ_cons]
    refine ⟨hitems, ?_, ?_⟩
    · rw [hitems]
      simp [List.length_take, hlen]
    · exact pairwise_getLast_oldest _ (getHistory_sorted slot)

/-- A full ledger of 50 records for a different symbol. -/
def fullLedger : List HistoryItem :=
  List.replicate 50
    { id := "x", stockSymbol := ['b'], status := .COMPLETED, currentStep := 5
      timestamp := 0, completedAt := none, gmDecision := none, outputs := emptyOutputs }

/-- C5 witness: recording a 51st distinct record over a full 50-entry ledger
keeps the size at exactly 50 (and within the cap). -/
theorem C5_ledger_capped_witness :
    ((∀ it ∈ (getHistory (some (.parsed STORAGE_VERSION fullLedger))).1,
        it.stockSymbol ≠ runningState.stockSymbol) ∧
      (getHistory (some (.parsed STORAGE_VERSION fullLedger))).1.length = 50) ∧
    (ledgerItems (saveToHistory 9 runningState
      (some (.parsed STORAGE_VERSION fullLedger)))).length = 50 ∧
    (ledgerItems (saveToHistory 9 runningState
      (some (.parsed STORAGE_VERSION fullLedger)))).length ≤ 50 :=
  ⟨⟨by decide, by decide⟩,
    (C5_ledger_capped.2 9 runningState (some (.parsed STORAGE_VERSION fullLedger))
      (by decide) (by decide)).2.1,
    C5_ledger_capped.1 9 runningState (some (.parsed STORAGE_VERSION fullLedger))⟩

end AlphaCouncil
